import Mathlib

/-!
Verification model of the live-quiz orchestrator of the daily-mind-education
repository.  The definitions below are shallow embeddings of the JavaScript
source files:

* backend/controllers/quizController.js  (REST answer intake, submitAnswer)
* backend/utils/socketQuizOrchestrator.js  (socket answer intake, startQuizNow,
  finalizeQuiz)
* backend/utils/quizScheduler.js  (startQuizDirectly, startQuizSession,
  emitNextQuestion, endQuizSession, manualStartQuiz, shuffleQuestions)
* backend/server.js  (join-room resynchronisation payload)

JavaScript numbers are modelled as Int (all quantities involved are integers
of magnitude far below 2^53, so double-precision arithmetic is exact);
timestamps are milliseconds since the epoch.  Mongoose ObjectIds are
modelled as Nat.  A real-number division d = ms / 1000 followed by an
integer-valued comparison or floor is carried out exactly on Int.
-/

/-- A quiz question, from the QuestionSchema of backend/models/Quiz.js.
The correctIndex is a JS number and may be out of range, hence Int. -/
structure Question where
  qid : Nat
  text : String
  options : List String
  correctIndex : Int
  category : String
  difficulty : String
  points : Int
  deriving DecidableEq

/-- One answer-ledger entry pushed by quizController.submitAnswer
(participant.answers in the ParticipantSchema). -/
structure AnswerEntry where
  questionId : Nat
  selectedIndex : Int
  correct : Bool
  timeTaken : Int
  points : Int
  deriving DecidableEq

/-- One participant sub-record of a quiz document (ParticipantSchema). -/
structure Participant where
  user : Nat
  score : Int
  totalQuestions : Int
  correctAnswers : Int
  timeSpent : Int
  answers : List AnswerEntry
  isCompleted : Bool
  rank : Option Nat
  paid : Bool
  deriving DecidableEq

/-- The durable quiz record (QuizSchema), restricted to the fields the
live-session core reads and writes. -/
structure QuizRec where
  questions : List Question
  participants : List Participant
  isLive : Bool
  published : Bool
  status : String
  currentQuestionIndex : Int
  questionStartTime : Option Int
  timePerQuestion : Int
  startTime : Option Int
  totalQuestions : Int
  shuffleSetting : Bool
  deriving DecidableEq

/-- JS array indexing arr i : negative or out-of-range indices yield
undefined, modelled as none. -/
def jsIndex (l : List α) (i : Int) : Option α :=
  if i < 0 then none else l.get? i.toNat

/-- JS Math.round applied to the real number ms / 1000 : round half up,
computed exactly as the floor of (ms + 500) / 1000. -/
def jsRound (ms : Int) : Int := (ms + 500) / 1000

/-- Sum of the points of all entries of an answer ledger. -/
def ledgerSum (l : List AnswerEntry) : Int := (l.map (·.points)).sum

/-- Mutating the participant object found by participants.find and saving the
document replaces the first matching array element. -/
def setParticipant : List Participant → Nat → Participant → List Participant
  | [], _, _ => []
  | p :: rest, uid, p' =>
      if p.user == uid then p' :: rest else p :: setParticipant rest uid p'

/-- Result of the REST submitAnswer controller: an HTTP error response or
the success payload sent back to the submitting client. -/
inductive SubmitResult where
  | notFound (msg : String)
  | rejected (msg : String)
  | accepted (correct : Bool) (points : Int) (totalScore : Int)
  deriving DecidableEq

/-- The request body of POST submit-answer.  clientTimeTaken is the
client-supplied timeTaken field: it is destructured by the controller but
never used. -/
structure SubmitReq where
  userId : Nat
  questionId : Nat
  selectedIndex : Int
  clientTimeTaken : Int
  deriving DecidableEq

/-- Core of quizController.submitAnswer, operating on the quiz document
snapshot returned by Quiz.findById.  Returns the document as saved by
quiz.save together with the response.  now is the server clock Date.now()
in milliseconds.  The elapsed-time comparisons elapsed > timePerQuestion + 1
and elapsed < 0.5 (with elapsed = elapsedMs / 1000 in seconds) are computed
exactly on milliseconds. -/
def submitAnswerOn (quiz : QuizRec) (r : SubmitReq) (now : Int) :
    QuizRec × SubmitResult :=
  match quiz.participants.find? (fun p => p.user == r.userId) with
  | none => (quiz, .rejected "User not registered for this quiz")
  | some participant =>
    match participant.answers.find? (fun a => a.questionId == r.questionId) with
    | some _ => (quiz, .rejected "Question already answered")
    | none =>
      match quiz.questions.find? (fun q => q.qid == r.questionId) with
      | none => (quiz, .notFound "Question not found")
      | some question =>
        let questionStartTime := quiz.questionStartTime.getD 0
        let elapsedMs := now - questionStartTime
        if elapsedMs > (quiz.timePerQuestion + 1) * 1000 then
          (quiz, .rejected "Time limit exceeded")
        else if elapsedMs < 500 then
          (quiz, .rejected "Answer submitted too quickly")
        else
          let isCorrect := r.selectedIndex == question.correctIndex
          let points := if isCorrect then question.points else 0
          let entry : AnswerEntry :=
            { questionId := r.questionId
              selectedIndex := r.selectedIndex
              correct := isCorrect
              timeTaken := jsRound elapsedMs
              points := points }
          let participant' : Participant :=
            { participant with
              answers := participant.answers ++ [entry]
              score := participant.score + points
              totalQuestions := participant.totalQuestions + 1
              correctAnswers :=
                participant.correctAnswers + (if isCorrect then 1 else 0)
              timeSpent := participant.timeSpent + jsRound elapsedMs }
          ({ quiz with
             participants := setParticipant quiz.participants r.userId participant' },
           .accepted isCorrect points participant'.score)

/-- quizController.submitAnswer : Quiz.findById on the durable store, then
the in-memory pipeline, then quiz.save. -/
def submitAnswer (store : Option QuizRec) (r : SubmitReq) (now : Int) :
    Option QuizRec × SubmitResult :=
  match store with
  | none => (none, .notFound "Quiz not found")
  | some quiz =>
      let (quiz', res) := submitAnswerOn quiz r now
      (some quiz', res)

/-! ## Socket quiz orchestrator (backend/utils/socketQuizOrchestrator.js) -/

/-- One entry of the in-memory per-participant answer map of the socket
orchestrator: participant.answers.set(questionIndex, ...). -/
structure OrchAnswer where
  selectedIndex : Int
  isCorrect : Bool
  points : Int
  timeTaken : Int
  deriving DecidableEq

/-- In-memory participant state kept by the orchestrator.  The answer map is
modelled as an association list keyed by question index. -/
structure OrchParticipant where
  answers : List (Int × OrchAnswer)
  score : Int
  correctAnswers : Int
  timeSpent : Int
  isCompleted : Bool
  deriving DecidableEq

/-- In-memory quiz state of the orchestrator (one entry of
ORCHESTRATOR.quizzes).  questions is the cloned quizDoc question list;
questionStartAt is in milliseconds, questionDurationSec in seconds. -/
structure OrchState where
  currentIndex : Int
  running : Bool
  questionStartAt : Int
  questionDurationSec : Int
  questions : List Question
  participants : List (Nat × OrchParticipant)
  deriving DecidableEq

/-- Result emitted back to the submitting socket: answer-error with a
message, or the answer-result acknowledgment. -/
inductive OrchResult where
  | error (msg : String)
  | answered (correct : Bool) (points : Int) (totalScore : Int)
  deriving DecidableEq

/-- Replace the participant stored under a user id
(qstate.participants.set after mutating the found object). -/
def setOrchParticipant :
    List (Nat × OrchParticipant) → Nat → OrchParticipant →
    List (Nat × OrchParticipant)
  | [], _, _ => []
  | p :: rest, uid, p' =>
      if p.1 == uid then (uid, p') :: rest
      else p :: setOrchParticipant rest uid p'

/-- The submit-answer socket handler of the orchestrator.  qstate is
ORCHESTRATOR.quizzes.get(quizId) (none when the quiz was never set up);
timestampClient is the optional client timestamp of the payload, which the
handler never reads.  timeTaken is Math.max(0, Math.floor((now -
questionStart) / 1000)), exact on Int since division by a positive number
floors.  The missing-question branch models the TypeError thrown by reading
question.correctIndex of undefined, which the surrounding catch converts to
a generic answer-error.  question.points || 1 substitutes 1 when the stored
point value is 0 (undefined is impossible: the schema default fills it). -/
def submitAnswerSocket (qstate : Option OrchState) (userId : Nat)
    (questionIndex selectedIndex : Int) (timestampClient : Int) (now : Int) :
    Option OrchState × OrchResult :=
  match qstate with
  | none => (none, .error "Quiz not running")
  | some st =>
    if !st.running then (some st, .error "Quiz not running")
    else if st.currentIndex ≠ questionIndex then
      (some st, .error "Answer for wrong question or late")
    else
      match st.participants.find? (fun p => p.1 == userId) with
      | none => (some st, .error "User not registered for quiz")
      | some (_, participant) =>
        if participant.answers.any (fun a => a.1 == questionIndex) then
          (some st, .error "Question already answered")
        else
          let timeTaken := max 0 ((now - st.questionStartAt) / 1000)
          if timeTaken > st.questionDurationSec then
            (some st, .error "Too late to answer")
          else
            match jsIndex st.questions st.currentIndex with
            | none => (some st, .error "Failed to process answer")
            | some question =>
              let isCorrect := selectedIndex == question.correctIndex
              let points :=
                if isCorrect then
                  (if question.points = 0 then 1 else question.points)
                else 0
              let participant' : OrchParticipant :=
                { participant with
                  answers := participant.answers ++
                    [(questionIndex,
                      { selectedIndex := selectedIndex
                        isCorrect := isCorrect
                        points := points
                        timeTaken := timeTaken })]
                  score := participant.score + points
                  timeSpent := participant.timeSpent + timeTaken
                  correctAnswers :=
                    participant.correctAnswers + (if isCorrect then 1 else 0) }
              (some { st with
                      participants :=
                        setOrchParticipant st.participants userId participant' },
               .answered isCorrect points participant'.score)

/-- Sum of the points of the orchestrator answer map. -/
def orchLedgerSum (l : List (Int × OrchAnswer)) : Int :=
  (l.map (·.2.points)).sum

/-! ## Quiz scheduler (backend/utils/quizScheduler.js) -/

/-- startQuizDirectly: the atomic conditional update
Quiz.findOneAndUpdate with filter isLive = false and a set of the live
fields.  Returns the new store and whether the claim succeeded (updatedQuiz
non-null). -/
def startQuizDirectly (store : Option QuizRec) (now : Int) :
    Option QuizRec × Bool :=
  match store with
  | none => (none, false)
  | some quiz =>
      if quiz.isLive then (some quiz, false)
      else
        (some { quiz with
                status := "live"
                isLive := true
                published := true
                startTime := some now
                currentQuestionIndex := 0 },
         true)

/-- One destructuring swap step arr i and arr j (both indices in range in
every use below).  d is the out-of-range default, never read in range. -/
def swapAt (l : List α) (i j : Nat) (d : α) : List α :=
  (l.set i (l.getD j d)).set j (l.getD i d)

/-- The Fisher-Yates loop for i from hi down to 1, swapping index i with
index rand i % (i + 1).  rand models the stream of Math.floor(Math.random()
* (i + 1)) draws, which always lie in 0..i. -/
def fyLoop (rand : Nat → Nat) (d : α) : Nat → List α → List α
  | 0, l => l
  | i + 1, l => fyLoop rand d i (swapAt l (i + 1) (rand (i + 1) % (i + 2)) d)

/-- Fisher-Yates shuffle of a list, as in shuffleQuestions: loop i from
length - 1 down to 1. -/
def fisherYates (rand : Nat → Nat) (d : α) (l : List α) : List α :=
  fyLoop rand d (l.length - 1) l

/-- JS Array.prototype.findIndex: index of the first match, -1 when none
(List.findIdx returns the length when nothing matches). -/
def jsFindIndex (p : α → Bool) (l : List α) : Int :=
  if l.findIdx p < l.length then (l.findIdx p : Int) else -1

/-- The per-question body of shuffleQuestions: shuffle the options and
recompute correctIndex as the first index whose option text equals the
original correct option text.  An out-of-range correctIndex reads undefined
(none), which matches no option, giving findIndex = -1. -/
def shuffleOptions (rand : Nat → Nat) (q : Question) : Question :=
  if q.options.isEmpty then q
  else
    let originalCorrectAnswer := jsIndex q.options q.correctIndex
    let shuffledOptions := fisherYates rand "" q.options
    { q with
      options := shuffledOptions
      correctIndex :=
        jsFindIndex (fun opt => originalCorrectAnswer == some opt)
          shuffledOptions }

/-- A placeholder question used only as the out-of-range default of the JS
destructuring swap; it is never read because all swap indices are in
range. -/
def defaultQuestion : Question :=
  { qid := 0, text := "", options := [], correctIndex := 0
    category := "", difficulty := "", points := 0 }

/-- shuffleQuestions of backend/utils/quizScheduler.js.  qrand draws the
question-level shuffle; orand k draws the option shuffle of the question at
position k of the shuffled list (each forEach iteration draws fresh
randomness). -/
def shuffleQuestions (qrand : Nat → Nat) (orand : Nat → Nat → Nat)
    (questions : List Question) : List Question :=
  if questions.isEmpty then questions
  else
    (fisherYates qrand defaultQuestion questions).mapIdx
      (fun k q => shuffleOptions (orand k) q)

/-- manualStartQuiz after Quiz.findById: the snapshot is checked for
liveness in memory, the questions are optionally shuffled, the live fields
are set and quiz.save() writes the whole mutated snapshot back,
unconditionally overwriting whatever the durable record holds by then. -/
def manualStartOn (qrand : Nat → Nat) (orand : Nat → Nat → Nat)
    (snapshot : QuizRec) (now : Int) : Except String QuizRec :=
  if snapshot.isLive then .error "Quiz already live"
  else
    let questions :=
      if snapshot.shuffleSetting ∧ ¬snapshot.questions.isEmpty then
        shuffleQuestions qrand orand snapshot.questions
      else snapshot.questions
    .ok { snapshot with
          questions := questions
          status := "live"
          isLive := true
          published := true
          startTime := some now
          currentQuestionIndex := 0 }

/-- manualStartQuiz run sequentially: the snapshot loaded by findById is the
current durable record. -/
def manualStartQuiz (qrand : Nat → Nat) (orand : Nat → Nat → Nat)
    (store : Option QuizRec) (now : Int) : Except String (Option QuizRec) :=
  match store with
  | none => .error "Quiz not found"
  | some snapshot =>
      match manualStartOn qrand orand snapshot now with
      | .error e => .error e
      | .ok quiz' => .ok (some quiz')

/-! ## Session driver (startQuizSession / emitNextQuestion) -/

/-- Outcome of one emitNextQuestion invocation at in-memory index idx:
the session stops (quiz gone or no longer live), ends (index past the last
question, endQuizSession), or schedules the next invocation at idx + 1 -
either after emitting the question, or directly when the question at idx
is missing. -/
inductive EmitOutcome where
  | stopped
  | ended
  | advanced (next : Nat) (emitted : Option Question)
  deriving DecidableEq

/-- One emitNextQuestion step: reload the quiz, stop when missing or not
live, end when the index is past the last question, otherwise advance by
one (emitting the question when present). -/
def emitNextQuestionStep (store : Option QuizRec) (idx : Nat) : EmitOutcome :=
  match store with
  | none => .stopped
  | some quiz =>
      if ¬quiz.isLive then .stopped
      else if idx ≥ quiz.questions.length then .ended
      else
        match quiz.questions.get? idx with
        | none => .advanced (idx + 1) none
        | some q => .advanced (idx + 1) (some q)

/-- The index the next emitNextQuestion invocation is scheduled at, when
the outcome schedules one. -/
def stepNext : EmitOutcome → Option Nat
  | .advanced n _ => some n
  | _ => none

/-- One step of the in-memory questionIndex trace: undefined once the
session stopped, otherwise the index scheduled by the emitNextQuestion
invocation at the current index (defined only when it advances). -/
def traceStep (s : Option QuizRec) (oi : Option Nat) : Option Nat :=
  match oi with
  | none => none
  | some i => stepNext (emitNextQuestionStep s i)

/-- The in-memory questionIndex along a session: step 0 holds the starting
index, and each later step is defined exactly when the previous
emitNextQuestion invocation scheduled another one.  stores k is the quiz
document reloaded at step k. -/
def sessionTrace (stores : Nat → Option QuizRec) (start : Nat) :
    Nat → Option Nat
  | 0 => some start
  | k + 1 => traceStep (stores k) (sessionTrace stores start k)

/-- The starting index of startQuizSession: the reloaded record's
currentQuestionIndex when non-negative, else 0 (none when the quiz is
missing or has no questions). -/
def startSessionIndex (store : Option QuizRec) : Option Nat :=
  match store with
  | none => none
  | some quiz =>
      if quiz.questions.isEmpty then none
      else some (if quiz.currentQuestionIndex ≥ 0
                 then quiz.currentQuestionIndex.toNat else 0)

/-- The first emitNextQuestion invocation of startQuizSession, together
with the document update it persists: the emitted index and the record
after the set of currentQuestionIndex and questionStartTime := now. -/
def startQuizSessionFirstStep (store : Option QuizRec) (now : Int) :
    Option (Nat × QuizRec) :=
  match store, startSessionIndex store with
  | some quiz, some idx =>
      match emitNextQuestionStep (some quiz) idx with
      | .advanced _ (some _) =>
          some (idx,
                { quiz with
                  currentQuestionIndex := (idx : Int)
                  questionStartTime := some now })
      | _ => none
  | _, _ => none

/-! ## Leaderboard finalizers -/

/-- The sort comparator (a, b) => b.score - a.score || a.timeSpent -
b.timeSpent, read as the total preorder an element a satisfies towards an
element b it precedes: a comes before b when the comparator is
non-positive.  JS Array.prototype.sort is a stable sort with respect to
this preorder. -/
def rankLe (a b : Participant) : Prop :=
  b.score - a.score < 0 ∨ (b.score - a.score = 0 ∧ a.timeSpent - b.timeSpent ≤ 0)

instance : DecidableRel rankLe := fun a b => by
  unfold rankLe; infer_instance

instance : IsTotal Participant rankLe :=
  ⟨fun a b => by unfold rankLe; omega⟩

instance : IsTrans Participant rankLe :=
  ⟨fun a b c h₁ h₂ => by unfold rankLe at *; omega⟩

/-- finalizeQuiz of the socket orchestrator: sort all participants by the
comparator and assign rank idx + 1 in sorted order.  The JS stable sort is
modelled by insertion sort, which is stable; with the comparator total and
transitive the stable-sorted sequence is unique, so this is the exact
semantics of the source sort. -/
def finalizeQuizRanking (ps : List Participant) : List (Participant × Nat) :=
  (List.insertionSort rankLe ps).enum.map (fun ip => (ip.2, ip.1 + 1))

/-- endQuizSession of the quiz scheduler: filter to paid participants, sort
with the same comparator, and assign rank index + 1 in sorted order. -/
def endQuizSessionRanking (ps : List Participant) : List (Participant × Nat) :=
  (List.insertionSort rankLe (ps.filter (·.paid))).enum.map
    (fun ip => (ip.2, ip.1 + 1))

/-! ## Client-visible payloads -/

/-- The question payload broadcast by the orchestrator while a question is
open (question-start): include question text and options but remove
correctIndex. -/
structure QuestionForClients where
  questionIndex : Nat
  text : String
  options : List String
  duration : Int
  deriving DecidableEq

/-- questionForClients of socketQuizOrchestrator.advanceTo. -/
def questionForClients (idx : Nat) (durationSec : Int) (q : Question) :
    QuestionForClients :=
  { questionIndex := idx, text := q.text, options := q.options
    duration := durationSec }

/-- The question-ended payload of the orchestrator, emitted at the close of
a question: it carries the correct index. -/
structure QuestionEndedPayload where
  questionIndex : Nat
  correctIndex : Int
  deriving DecidableEq

/-- question-ended emit of socketQuizOrchestrator.advanceTo. -/
def questionEndedPayload (idx : Nat) (q : Question) : QuestionEndedPayload :=
  { questionIndex := idx, correctIndex := q.correctIndex }

/-- The inner question object of the scheduler's question event
(emitNextQuestion in quizScheduler.js): id, text, options, category,
points - no correctIndex field. -/
structure SchedQuestionPayload where
  qid : Nat
  text : String
  options : List String
  category : String
  points : Int
  deriving DecidableEq

/-- The question object emitted by emitNextQuestion. -/
def schedQuestionPayload (q : Question) : SchedQuestionPayload :=
  { qid := q.qid, text := q.text, options := q.options
    category := q.category, points := q.points }

/-- The per-question object of the getTodayQuiz REST response: the quiz is
loaded with select of minus questions.correctIndex and each question is
mapped to id, text, options, category, difficulty, points. -/
structure TodayQuizQuestion where
  qid : Nat
  text : String
  options : List String
  category : String
  difficulty : String
  points : Int
  deriving DecidableEq

/-- The question objects of the getTodayQuiz response. -/
def getTodayQuizQuestions (quiz : QuizRec) : List TodayQuizQuestion :=
  quiz.questions.map (fun q =>
    { qid := q.qid, text := q.text, options := q.options
      category := q.category, difficulty := q.difficulty, points := q.points })

/-- The resynchronisation payload of the join-room handler of the first
backend/server.js revision: when the quiz has a current question it emits a
question event whose question field is the raw question subdocument q,
taken unfiltered from quiz.questions. -/
structure ResyncPayload where
  questionIndex : Int
  totalQuestions : Int
  question : Question
  timeLeft : Int
  startTime : Int
  duration : Int
  deriving DecidableEq

/-- join-room resynchronisation emit of the first backend/server.js
revision (the block following the join of the quiz room): the handler has
already rejected non-live quizzes, and when quiz.currentQuestionIndex
points at a still-open question - i.e. before that question's close
event - it emits the question event.  startMs is questionStartTime's
getTime() || Date.now() and durationMs is (timePerQuestion || 15) * 1000,
both with JS falsiness on 0. -/
def joinRoomResync (quiz : QuizRec) (now : Int) : Option ResyncPayload :=
  if ¬quiz.isLive then none
  else if quiz.currentQuestionIndex ≥ 0 then
    match jsIndex quiz.questions quiz.currentQuestionIndex with
    | none => none
    | some q =>
        let startMs :=
          match quiz.questionStartTime with
          | some t => if t = 0 then now else t
          | none => now
        let durationMs :=
          (if quiz.timePerQuestion = 0 then 15 else quiz.timePerQuestion) * 1000
        some { questionIndex := quiz.currentQuestionIndex + 1
               totalQuestions := quiz.totalQuestions
               question := q
               timeLeft := max 0 (durationMs - (now - startMs))
               startTime := startMs
               duration := durationMs }
  else none

/-! ## Concurrency harness for the duplicate-submission race -/

/-- Two duplicate submissions processed concurrently by the REST
controller: the handler is await Quiz.findById - compute - await
quiz.save, so both requests can complete findById (observing the same
snapshot) before either save is applied; the saves then land in order.
This run returns both responses and the final durable record. -/
def concurrentDuplicate (snapshot : QuizRec) (r : SubmitReq)
    (now₁ now₂ : Int) : SubmitResult × SubmitResult × QuizRec :=
  let first := submitAnswerOn snapshot r now₁
  let second := submitAnswerOn snapshot r now₂
  (first.2, second.2, second.1)

/-- Every participant ledger of the record has at most one entry per
question id. -/
def uniqueLedgers (quiz : QuizRec) : Prop :=
  ∀ p ∈ quiz.participants,
    p.answers.Pairwise (fun a b => a.questionId ≠ b.questionId)

/-! ## Test fixtures -/

/-- A concrete question used by the witnesses. -/
def q10 : Question :=
  { qid := 10, text := "What is 2 + 2?", options := ["3", "4", "5", "6"]
    correctIndex := 1, category := "math", difficulty := "easy", points := 5 }

/-- A freshly joined participant with an empty ledger. -/
def freshParticipant (uid : Nat) : Participant :=
  { user := uid, score := 0, totalQuestions := 0, correctAnswers := 0
    timeSpent := 0, answers := [], isCompleted := false, rank := none
    paid := true }

/-- A concrete live one-question quiz used by the witnesses. -/
def sampleQuiz : QuizRec :=
  { questions := [q10], participants := [freshParticipant 7], isLive := true
    published := true, status := "live", currentQuestionIndex := 0
    questionStartTime := some 1000, timePerQuestion := 15
    startTime := some 900, totalQuestions := 1, shuffleSetting := false }

/-- A concrete submit-answer request used by the witnesses. -/
def sampleReq : SubmitReq :=
  { userId := 7, questionId := 10, selectedIndex := 1, clientTimeTaken := 3 }

/-- A freshly joined in-memory orchestrator participant. -/
def orchP0 : OrchParticipant :=
  { answers := [], score := 0, correctAnswers := 0, timeSpent := 0
    isCompleted := false }

/-- A concrete in-memory orchestrator state used by the witnesses. -/
def sampleOrchState : OrchState :=
  { currentIndex := 0, running := true, questionStartAt := 1000
    questionDurationSec := 15, questions := [q10]
    participants := [(7, orchP0)] }

/-! ## Helper lemmas -/

/-- The participant record after the REST controller accepts an answer. -/
def acceptedParticipant (participant : Participant) (r : SubmitReq)
    (question : Question) (elapsedMs : Int) : Participant :=
  { participant with
    answers := participant.answers ++
      [{ questionId := r.questionId
         selectedIndex := r.selectedIndex
         correct := r.selectedIndex == question.correctIndex
         timeTaken := jsRound elapsedMs
         points := if r.selectedIndex == question.correctIndex
                   then question.points else 0 }]
    score := participant.score +
      (if r.selectedIndex == question.correctIndex then question.points else 0)
    totalQuestions := participant.totalQuestions + 1
    correctAnswers := participant.correctAnswers +
      (if r.selectedIndex == question.correctIndex then 1 else 0)
    timeSpent := participant.timeSpent + jsRound elapsedMs }

/-- The in-memory participant record after the socket orchestrator accepts
an answer. -/
def orchAcceptedParticipant (op : OrchParticipant) (qIdx sel : Int)
    (oq : Question) (timeTaken : Int) : OrchParticipant :=
  { op with
    answers := op.answers ++
      [(qIdx,
        { selectedIndex := sel
          isCorrect := sel == oq.correctIndex
          points := if sel == oq.correctIndex
                    then (if oq.points = 0 then 1 else oq.points) else 0
          timeTaken := timeTaken })]
    score := op.score +
      (if sel == oq.correctIndex
       then (if oq.points = 0 then 1 else oq.points) else 0)
    timeSpent := op.timeSpent + timeTaken
    correctAnswers := op.correctAnswers + (if sel == oq.correctIndex then 1 else 0) }

/-- A quiz whose only participant has already answered question 10, used by
the witnesses. -/
def answeredQuiz : QuizRec :=
  { sampleQuiz with
    participants := [{ freshParticipant 7 with
                       answers := [{ questionId := 10, selectedIndex := 1
                                     correct := true, timeTaken := 2
                                     points := 5 }]
                       score := 5, totalQuestions := 1, correctAnswers := 1
                       timeSpent := 2 }] }

/-- The four participants of the rank-ordering test vector: scores
50, 80, 80, 30 with cumulative times 10, 5, 8, 20. -/
def pA : Participant := { freshParticipant 1 with score := 50, timeSpent := 10 }

/-- Score-80 time-5 participant of the rank-ordering test vector. -/
def pB : Participant := { freshParticipant 2 with score := 80, timeSpent := 5 }

/-- Score-80 time-8 participant of the rank-ordering test vector. -/
def pC : Participant := { freshParticipant 3 with score := 80, timeSpent := 8 }

/-- Score-30 time-20 participant of the rank-ordering test vector. -/
def pD : Participant := { freshParticipant 4 with score := 30, timeSpent := 20 }

/-- The orchestrator continuation after a question ends: nextIdx is idx + 1
and the session either finalizes (no more questions) or advances to
nextIdx. -/
def advanceToNext (qstate : OrchState) (idx : Nat) : Option Nat :=
  if idx + 1 ≥ qstate.questions.length then none else some (idx + 1)

/-- A live two-question quiz used by the session-trace witness. -/
def liveQuiz6 : QuizRec :=
  { sampleQuiz with questions := [q10, { q10 with qid := 11 }] }

/-- The reloaded stores of the session-trace witness: the durable record
stays live throughout. -/
def stores6 : Nat → Option QuizRec := fun _ => some liveQuiz6

/-- A live quiz carrying durable mid-session runtime state - current
question index 3 and a recorded start instant - used by the recovery
claims. -/
def resumeQuiz : QuizRec :=
  { sampleQuiz with
    questions := [q10, { q10 with qid := 11 }, { q10 with qid := 12 },
                  { q10 with qid := 13 }, { q10 with qid := 14 }]
    currentQuestionIndex := 3
    questionStartTime := some 1000 }

/-- A live quiz whose open question has correctIndex 2, used to evaluate
the join-room resynchronisation payload. -/
def leakQuiz : QuizRec :=
  { sampleQuiz with questions := [{ q10 with correctIndex := 2 }] }

/-- The identity of a question up to the order of its options: text, point
value and the multiset of option texts. -/
def questionCore (q : Question) : String × Int × Multiset String :=
  (q.text, q.points, (q.options : Multiset String))

/-- The accepting branch of the REST pipeline, characterised explicitly. -/
theorem submitAnswerOn_accept
    (quiz : QuizRec) (r : SubmitReq) (now : Int)
    (participant : Participant) (question : Question)
    (hp : quiz.participants.find? (fun p => p.user == r.userId) = some participant)
    (ha : participant.answers.find? (fun a => a.questionId == r.questionId) = none)
    (hq : quiz.questions.find? (fun q => q.qid == r.questionId) = some question)
    (ht1 : ¬(now - quiz.questionStartTime.getD 0 > (quiz.timePerQuestion + 1) * 1000))
    (ht2 : ¬(now - quiz.questionStartTime.getD 0 < 500)) :
    submitAnswerOn quiz r now =
      ({ quiz with
         participants := setParticipant quiz.participants r.userId
           (acceptedParticipant participant r question
             (now - quiz.questionStartTime.getD 0)) },
       .accepted (r.selectedIndex == question.correctIndex)
         (if r.selectedIndex == question.correctIndex then question.points else 0)
         (participant.score +
           (if r.selectedIndex == question.correctIndex
            then question.points else 0))) := by
  simp only [submitAnswerOn, hp, ha, hq]
  rw [if_neg ht1, if_neg ht2]
  rfl

/-- The accepting branch of the socket orchestrator handler, characterised
explicitly. -/
theorem submitAnswerSocket_accept
    (st : OrchState) (uid : Nat) (qIdx sel tsc now : Int)
    (op : OrchParticipant) (oq : Question)
    (h1 : st.running = true)
    (h2 : st.currentIndex = qIdx)
    (h3 : st.participants.find? (fun p => p.1 == uid) = some (uid, op))
    (h4 : op.answers.any (fun a => a.1 == qIdx) = false)
    (h5 : ¬(max 0 ((now - st.questionStartAt) / 1000) > st.questionDurationSec))
    (h6 : jsIndex st.questions st.currentIndex = some oq) :
    submitAnswerSocket (some st) uid qIdx sel tsc now =
      (some { st with
              participants := setOrchParticipant st.participants uid
                (orchAcceptedParticipant op qIdx sel oq
                  (max 0 ((now - st.questionStartAt) / 1000))) },
       .answered (sel == oq.correctIndex)
         (if sel == oq.correctIndex
          then (if oq.points = 0 then 1 else oq.points) else 0)
         (op.score +
           (if sel == oq.correctIndex
            then (if oq.points = 0 then 1 else oq.points) else 0))) := by
  subst h2
  simp only [submitAnswerSocket, h1, h3, h4, h6, Bool.not_true,
    Bool.false_eq_true, if_false, ne_eq, not_true_eq_false, if_neg h5]
  rfl

/-- Appending one entry adds exactly its points to the ledger sum. -/
theorem ledgerSum_append (l : List AnswerEntry) (e : AnswerEntry) :
    ledgerSum (l ++ [e]) = ledgerSum l + e.points := by
  simp [ledgerSum]

/-- Appending one entry adds exactly its points to the orchestrator ledger
sum. -/
theorem orchLedgerSum_append (l : List (Int × OrchAnswer)) (k : Int)
    (e : OrchAnswer) :
    orchLedgerSum (l ++ [(k, e)]) = orchLedgerSum l + e.points := by
  simp [orchLedgerSum]

/-- Claim C1 (amended).  Both answer-intake paths: on acceptance the
recorded correctness is the equality test between the selected index and
the question's correctIndex, and the participant's cumulative score after
acceptance equals the sum of the points of all ledger entries (given the
reconciliation invariant held before).  The REST path awards exactly the
question's configured point value when correct and zero otherwise; the
socket-orchestrator path awards question.points with 1 substituted when the
configured value is 0. -/
theorem answer_scoring_and_reconciliation
    (quiz : QuizRec) (r : SubmitReq) (now : Int)
    (participant : Participant) (question : Question)
    (hp : quiz.participants.find? (fun p => p.user == r.userId) = some participant)
    (ha : participant.answers.find? (fun a => a.questionId == r.questionId) = none)
    (hq : quiz.questions.find? (fun q => q.qid == r.questionId) = some question)
    (ht1 : ¬(now - quiz.questionStartTime.getD 0 > (quiz.timePerQuestion + 1) * 1000))
    (ht2 : ¬(now - quiz.questionStartTime.getD 0 < 500))
    (hsum : participant.score = ledgerSum participant.answers)
    (st : OrchState) (uid : Nat) (qIdx sel tsc now₂ : Int)
    (op : OrchParticipant) (oq : Question)
    (h1 : st.running = true)
    (h2 : st.currentIndex = qIdx)
    (h3 : st.participants.find? (fun p => p.1 == uid) = some (uid, op))
    (h4 : op.answers.any (fun a => a.1 == qIdx) = false)
    (h5 : ¬(max 0 ((now₂ - st.questionStartAt) / 1000) > st.questionDurationSec))
    (h6 : jsIndex st.questions st.currentIndex = some oq)
    (hosum : op.score = orchLedgerSum op.answers) :
    (∃ p', submitAnswer (some quiz) r now =
        (some { quiz with
                participants := setParticipant quiz.participants r.userId p' },
         .accepted (r.selectedIndex == question.correctIndex)
           (if r.selectedIndex = question.correctIndex then question.points else 0)
           p'.score)
      ∧ p'.score = ledgerSum p'.answers)
    ∧ (∃ op', submitAnswerSocket (some st) uid qIdx sel tsc now₂ =
        (some { st with
                participants := setOrchParticipant st.participants uid op' },
         .answered (sel == oq.correctIndex)
           (if sel = oq.correctIndex
            then (if oq.points = 0 then 1 else oq.points) else 0)
           op'.score)
      ∧ op'.score = orchLedgerSum op'.answers) := by
  constructor
  · refine ⟨acceptedParticipant participant r question
      (now - quiz.questionStartTime.getD 0), ?_, ?_⟩
    · simp only [submitAnswer,
        submitAnswerOn_accept quiz r now participant question hp ha hq ht1 ht2]
      by_cases hc : r.selectedIndex = question.correctIndex <;>
        simp [hc, acceptedParticipant]
    · simp [acceptedParticipant, ledgerSum_append, ← hsum]
  · refine ⟨orchAcceptedParticipant op qIdx sel oq
      (max 0 ((now₂ - st.questionStartAt) / 1000)), ?_, ?_⟩
    · rw [submitAnswerSocket_accept st uid qIdx sel tsc now₂ op oq
        h1 h2 h3 h4 h5 h6]
      by_cases hc : sel = oq.correctIndex <;>
        simp [hc, orchAcceptedParticipant]
    · simp [orchAcceptedParticipant, orchLedgerSum_append, ← hosum]

/-- Claim C1 counterexample: in the socket-orchestrator path a correct
answer to a question whose configured point value is 0 is awarded 1 point
(question.points || 1), not the configured 0. -/
theorem answer_scoring_socket_zero_points :
    (submitAnswerSocket
      (some { sampleOrchState with questions := [{ q10 with points := 0 }] })
      7 0 1 0 3000).2 = .answered true 1 1
    ∧ ({ q10 with points := 0 } : Question).points = 0
    ∧ (1 : Int) ≠ 0 := by
  refine ⟨?_, by decide, by decide⟩
  rfl

/-- Witness for answer_scoring_and_reconciliation at the concrete sample
quiz, request and orchestrator state. -/
theorem answer_scoring_and_reconciliation_witness :
    (∃ p', submitAnswer (some sampleQuiz) sampleReq 5000 =
        (some { sampleQuiz with
                participants := setParticipant sampleQuiz.participants 7 p' },
         .accepted (((1 : Int) == (1 : Int)))
           (if (1 : Int) = 1 then (5 : Int) else 0) p'.score)
      ∧ p'.score = ledgerSum p'.answers)
    ∧ (∃ op', submitAnswerSocket (some sampleOrchState) 7 0 1 99 3000 =
        (some { sampleOrchState with
                participants :=
                  setOrchParticipant sampleOrchState.participants 7 op' },
         .answered (((1 : Int) == (1 : Int)))
           (if (1 : Int) = 1 then (if (5 : Int) = 0 then 1 else 5) else 0)
           op'.score)
      ∧ op'.score = orchLedgerSum op'.answers) :=
  answer_scoring_and_reconciliation sampleQuiz sampleReq 5000
    (freshParticipant 7) q10 (by decide) (by decide) (by decide) (by decide)
    (by decide) (by decide) sampleOrchState 7 0 1 99 3000
    orchP0 q10 (by decide) (by decide) (by decide)
    (by decide) (by decide) (by decide) (by decide)

/-- The duplicate-rejection branch of the REST pipeline. -/
theorem submitAnswerOn_already_answered
    (quiz : QuizRec) (r : SubmitReq) (now : Int)
    (participant : Participant) (a : AnswerEntry)
    (hp : quiz.participants.find? (fun p => p.user == r.userId) = some participant)
    (ha : participant.answers.find? (fun e => e.questionId == r.questionId) = some a) :
    submitAnswerOn quiz r now = (quiz, .rejected "Question already answered") := by
  simp only [submitAnswerOn, hp, ha]

/-- An element of setParticipant ps uid p' is p' or an element of ps. -/
theorem mem_setParticipant {ps : List Participant} {uid : Nat}
    {p' x : Participant} (hx : x ∈ setParticipant ps uid p') :
    x = p' ∨ x ∈ ps := by
  induction ps with
  | nil => simp [setParticipant] at hx
  | cons p rest ih =>
      simp only [setParticipant] at hx
      by_cases h : p.user == uid
      · rw [if_pos h] at hx
        rcases List.mem_cons.mp hx with h' | h'
        · exact Or.inl h'
        · exact Or.inr (List.mem_cons_of_mem _ h')
      · rw [if_neg h] at hx
        rcases List.mem_cons.mp hx with h' | h'
        · exact Or.inr (h' ▸ List.mem_cons_self _ _)
        · rcases ih h' with h'' | h''
          · exact Or.inl h''
          · exact Or.inr (List.mem_cons_of_mem _ h'')

/-- Either the REST pipeline leaves the document unchanged, or it accepts
and updates the found participant, whose ledger had no entry for the
submitted question. -/
theorem submitAnswerOn_fst (quiz : QuizRec) (r : SubmitReq) (now : Int) :
    (submitAnswerOn quiz r now).1 = quiz ∨
    ∃ p qq, quiz.participants.find? (fun x => x.user == r.userId) = some p ∧
      p.answers.find? (fun e => e.questionId == r.questionId) = none ∧
      (submitAnswerOn quiz r now).1 =
        { quiz with
          participants := setParticipant quiz.participants r.userId
            (acceptedParticipant p r qq (now - quiz.questionStartTime.getD 0)) } := by
  rcases hfp : quiz.participants.find? (fun x => x.user == r.userId) with _ | p
  · left
    simp only [submitAnswerOn, hfp]
  · rcases hfa : p.answers.find? (fun e => e.questionId == r.questionId) with _ | a₂
    · rcases hfq : quiz.questions.find? (fun q => q.qid == r.questionId) with _ | qq
      · left
        simp only [submitAnswerOn, hfp, hfa, hfq]
      · by_cases ht1 : now - quiz.questionStartTime.getD 0 >
            (quiz.timePerQuestion + 1) * 1000
        · left
          simp only [submitAnswerOn, hfp, hfa, hfq]
          rw [if_pos ht1]
        · by_cases ht2 : now - quiz.questionStartTime.getD 0 < 500
          · left
            simp only [submitAnswerOn, hfp, hfa, hfq]
            rw [if_neg ht1, if_pos ht2]
          · right
            exact ⟨p, qq, hfp, hfa, by
              rw [submitAnswerOn_accept quiz r now p qq hfp hfa hfq ht1 ht2]⟩
    · left
      simp only [submitAnswerOn, hfp, hfa]

/-- Claim C2 (amended).  A submitAnswer call whose loaded quiz document
already records an answer for the submitted question is rejected with the
already-answered reason and leaves the document - ledger and aggregates -
unchanged, and every submitAnswer call preserves the at-most-one-entry-per-
question property of all ledgers.  The check-and-write is however a
read-modify-write cycle, not an atomic conditional operation; see the
counterexample. -/
theorem at_most_one_answer_per_question
    (quiz : QuizRec) (r : SubmitReq) (now : Int)
    (participant : Participant) (a : AnswerEntry)
    (hp : quiz.participants.find? (fun p => p.user == r.userId) = some participant)
    (ha : participant.answers.find? (fun e => e.questionId == r.questionId) = some a) :
    submitAnswer (some quiz) r now = (some quiz, .rejected "Question already answered")
    ∧ ∀ quiz₂ r₂ now₂, uniqueLedgers quiz₂ →
        ∀ quiz₂', (submitAnswer (some quiz₂) r₂ now₂).1 = some quiz₂' →
          uniqueLedgers quiz₂' := by
  constructor
  · simp only [submitAnswer,
      submitAnswerOn_already_answered quiz r now participant a hp ha]
  · intro quiz₂ r₂ now₂ hu quiz₂' heq
    have heq' : quiz₂' = (submitAnswerOn quiz₂ r₂ now₂).1 := by
      rcases hres : submitAnswerOn quiz₂ r₂ now₂ with ⟨q', res⟩
      simp only [submitAnswer, hres, Option.some.injEq] at heq
      simp [heq]
    subst heq'
    rcases submitAnswerOn_fst quiz₂ r₂ now₂ with h | ⟨p, qq, hfp, hfa, h⟩
    · rw [h]
      exact hu
    · rw [h]
      intro x hx
      rcases mem_setParticipant hx with h' | h'
      · subst h'
        simp only [acceptedParticipant]
        rw [List.pairwise_append]
        refine ⟨hu p (List.mem_of_find?_eq_some hfp), by simp, ?_⟩
        intro e he e' he'
        rw [List.mem_singleton] at he'
        subst he'
        have := List.find?_eq_none.mp hfa e he
        simpa using this
      · exact hu x h'

/-- Claim C2 counterexample: the duplicate check runs on the snapshot
loaded by findById and the save writes back unconditionally, so two
duplicate submissions whose findById calls both complete before either
save are both accepted; rerunning the pipeline on the record written by
the first submission shows an atomic check-and-write against the durable
store would have rejected the second. -/
theorem duplicate_submission_race :
    (concurrentDuplicate sampleQuiz sampleReq 3000 3200).1 = .accepted true 5 5
    ∧ (concurrentDuplicate sampleQuiz sampleReq 3000 3200).2.1 = .accepted true 5 5
    ∧ (submitAnswerOn (submitAnswerOn sampleQuiz sampleReq 3000).1
        sampleReq 3200).2 = .rejected "Question already answered" := by
  decide

/-- Witness for at_most_one_answer_per_question at the concrete
already-answered quiz. -/
theorem at_most_one_answer_per_question_witness :
    submitAnswer (some answeredQuiz) sampleReq 3000
      = (some answeredQuiz, .rejected "Question already answered")
    ∧ uniqueLedgers ((submitAnswerOn sampleQuiz sampleReq 3000).1) :=
  ⟨(at_most_one_answer_per_question answeredQuiz sampleReq 3000
      { freshParticipant 7 with
        answers := [{ questionId := 10, selectedIndex := 1, correct := true
                      timeTaken := 2, points := 5 }]
        score := 5, totalQuestions := 1, correctAnswers := 1, timeSpent := 2 }
      { questionId := 10, selectedIndex := 1, correct := true, timeTaken := 2
        points := 5 } (by decide) (by decide)).1,
   (at_most_one_answer_per_question answeredQuiz sampleReq 3000
      { freshParticipant 7 with
        answers := [{ questionId := 10, selectedIndex := 1, correct := true
                      timeTaken := 2, points := 5 }]
        score := 5, totalQuestions := 1, correctAnswers := 1, timeSpent := 2 }
      { questionId := 10, selectedIndex := 1, correct := true, timeTaken := 2
        points := 5 } (by decide) (by decide)).2 sampleQuiz sampleReq 3000
      (by simp [uniqueLedgers, sampleQuiz, freshParticipant]) _ rfl⟩

/-- The time-exceeded branch of the REST pipeline. -/
theorem submitAnswerOn_time_exceeded
    (quiz : QuizRec) (r : SubmitReq) (now : Int)
    (participant : Participant) (question : Question)
    (hp : quiz.participants.find? (fun p => p.user == r.userId) = some participant)
    (ha : participant.answers.find? (fun e => e.questionId == r.questionId) = none)
    (hq : quiz.questions.find? (fun q => q.qid == r.questionId) = some question)
    (ht : now - quiz.questionStartTime.getD 0 > (quiz.timePerQuestion + 1) * 1000) :
    submitAnswerOn quiz r now = (quiz, .rejected "Time limit exceeded") := by
  simp only [submitAnswerOn, hp, ha, hq]
  rw [if_pos ht]

/-- The too-late branch of the socket orchestrator handler. -/
theorem submitAnswerSocket_too_late
    (st : OrchState) (uid : Nat) (qIdx sel tsc now : Int)
    (op : OrchParticipant)
    (h1 : st.running = true)
    (h2 : st.currentIndex = qIdx)
    (h3 : st.participants.find? (fun p => p.1 == uid) = some (uid, op))
    (h4 : op.answers.any (fun a => a.1 == qIdx) = false)
    (ht : max 0 ((now - st.questionStartAt) / 1000) > st.questionDurationSec) :
    submitAnswerSocket (some st) uid qIdx sel tsc now =
      (some st, .error "Too late to answer") := by
  subst h2
  simp only [submitAnswerSocket, h1, h3, h4, Bool.not_true,
    Bool.false_eq_true, if_false, ne_eq, not_true_eq_false, if_pos ht]

/-- Claim C3.  Both answer-intake paths enforce the server-side time
window: any submission reaching the timing check with elapsed time beyond
the one-second grace (REST: elapsed seconds strictly above
timePerQuestion + 1; socket: floored elapsed seconds strictly above the
duration) is rejected with the time-exceeded reason; in particular
elapsed = duration + 2 seconds is rejected, and a submission at
elapsed = duration - 1 seconds that passes the remaining checks (for the
REST path the minimum-elapsed floor of 0.5 seconds) is accepted. -/
theorem time_window_enforcement
    (quiz : QuizRec) (r : SubmitReq)
    (participant : Participant) (question : Question)
    (hp : quiz.participants.find? (fun p => p.user == r.userId) = some participant)
    (ha : participant.answers.find? (fun e => e.questionId == r.questionId) = none)
    (hq : quiz.questions.find? (fun q => q.qid == r.questionId) = some question)
    (st : OrchState) (uid : Nat) (qIdx sel tsc : Int)
    (op : OrchParticipant) (oq : Question)
    (h1 : st.running = true)
    (h2 : st.currentIndex = qIdx)
    (h3 : st.participants.find? (fun p => p.1 == uid) = some (uid, op))
    (h4 : op.answers.any (fun a => a.1 == qIdx) = false)
    (h6 : jsIndex st.questions st.currentIndex = some oq)
    (hdur : 0 ≤ st.questionDurationSec) :
    (∀ now, now - quiz.questionStartTime.getD 0 >
        (quiz.timePerQuestion + 1) * 1000 →
        submitAnswer (some quiz) r now
          = (some quiz, .rejected "Time limit exceeded"))
    ∧ submitAnswer (some quiz) r
        (quiz.questionStartTime.getD 0 + (quiz.timePerQuestion + 2) * 1000)
        = (some quiz, .rejected "Time limit exceeded")
    ∧ ((quiz.timePerQuestion - 1) * 1000 ≥ 500 →
        (submitAnswer (some quiz) r
          (quiz.questionStartTime.getD 0 + (quiz.timePerQuestion - 1) * 1000)).2
          = .accepted (r.selectedIndex == question.correctIndex)
              (if r.selectedIndex == question.correctIndex
               then question.points else 0)
              (participant.score +
                (if r.selectedIndex == question.correctIndex
                 then question.points else 0)))
    ∧ (∀ now₂, now₂ - st.questionStartAt >
        (st.questionDurationSec + 1) * 1000 →
        submitAnswerSocket (some st) uid qIdx sel tsc now₂
          = (some st, .error "Too late to answer"))
    ∧ submitAnswerSocket (some st) uid qIdx sel tsc
        (st.questionStartAt + (st.questionDurationSec + 2) * 1000)
        = (some st, .error "Too late to answer")
    ∧ (submitAnswerSocket (some st) uid qIdx sel tsc
        (st.questionStartAt + (st.questionDurationSec - 1) * 1000)).2
        = .answered (sel == oq.correctIndex)
            (if sel == oq.correctIndex
             then (if oq.points = 0 then 1 else oq.points) else 0)
            (op.score +
              (if sel == oq.correctIndex
               then (if oq.points = 0 then 1 else oq.points) else 0)) := by
  have socketLate : ∀ now₂, now₂ - st.questionStartAt >
      (st.questionDurationSec + 1) * 1000 →
      submitAnswerSocket (some st) uid qIdx sel tsc now₂
        = (some st, .error "Too late to answer") := by
    intro now₂ h
    refine submitAnswerSocket_too_late st uid qIdx sel tsc now₂ op h1 h2 h3 h4 ?_
    have hq : (now₂ - st.questionStartAt) / 1000 > st.questionDurationSec := by
      omega
    exact lt_of_lt_of_le hq (le_max_right 0 _)
  refine ⟨?_, ?_, ?_, socketLate, ?_, ?_⟩
  · intro now h
    simp only [submitAnswer,
      submitAnswerOn_time_exceeded quiz r now participant question hp ha hq h]
  · have ht : quiz.questionStartTime.getD 0 + (quiz.timePerQuestion + 2) * 1000 -
        quiz.questionStartTime.getD 0 > (quiz.timePerQuestion + 1) * 1000 := by
      omega
    simp only [submitAnswer,
      submitAnswerOn_time_exceeded quiz r
        (quiz.questionStartTime.getD 0 + (quiz.timePerQuestion + 2) * 1000)
        participant question hp ha hq ht]
  · intro hfloor
    have ht1 : ¬(quiz.questionStartTime.getD 0 +
        (quiz.timePerQuestion - 1) * 1000 - quiz.questionStartTime.getD 0 >
        (quiz.timePerQuestion + 1) * 1000) := by omega
    have ht2 : ¬(quiz.questionStartTime.getD 0 +
        (quiz.timePerQuestion - 1) * 1000 - quiz.questionStartTime.getD 0 <
        500) := by omega
    simp only [submitAnswer,
      submitAnswerOn_accept quiz r _ participant question hp ha hq ht1 ht2]
  · exact socketLate _ (by omega)
  · have h5 : ¬(max 0 ((st.questionStartAt +
        (st.questionDurationSec - 1) * 1000 - st.questionStartAt) / 1000) >
        st.questionDurationSec) := by
      rw [not_lt]
      refine max_le hdur ?_
      omega
    rw [submitAnswerSocket_accept st uid qIdx sel tsc _ op oq h1 h2 h3 h4 h5 h6]

/-- Witness for time_window_enforcement at the concrete sample quiz and
orchestrator state. -/
theorem time_window_enforcement_witness :
    submitAnswer (some sampleQuiz) sampleReq
        (sampleQuiz.questionStartTime.getD 0 +
          (sampleQuiz.timePerQuestion + 2) * 1000)
        = (some sampleQuiz, .rejected "Time limit exceeded")
    ∧ (submitAnswer (some sampleQuiz) sampleReq
        (sampleQuiz.questionStartTime.getD 0 +
          (sampleQuiz.timePerQuestion - 1) * 1000)).2
        = .accepted ((sampleReq.selectedIndex == q10.correctIndex))
            (if sampleReq.selectedIndex == q10.correctIndex
             then q10.points else 0)
            ((freshParticipant 7).score +
              (if sampleReq.selectedIndex == q10.correctIndex
               then q10.points else 0))
    ∧ submitAnswerSocket (some sampleOrchState) 7 0 1 0
        (sampleOrchState.questionStartAt +
          (sampleOrchState.questionDurationSec + 2) * 1000)
        = (some sampleOrchState, .error "Too late to answer")
    ∧ (submitAnswerSocket (some sampleOrchState) 7 0 1 0
        (sampleOrchState.questionStartAt +
          (sampleOrchState.questionDurationSec - 1) * 1000)).2
        = .answered (((1 : Int) == q10.correctIndex))
            (if (1 : Int) == q10.correctIndex
             then (if q10.points = 0 then 1 else q10.points) else 0)
            (orchP0.score +
              (if (1 : Int) == q10.correctIndex
               then (if q10.points = 0 then 1 else q10.points) else 0)) := by
  have h := time_window_enforcement sampleQuiz sampleReq (freshParticipant 7)
    q10 (by decide) (by decide) (by decide) sampleOrchState 7 0 1 0 orchP0 q10
    (by decide) (by decide) (by decide) (by decide) (by decide) (by decide)
  exact ⟨h.2.1, h.2.2.1 (by decide), h.2.2.2.2.1, h.2.2.2.2.2⟩

/-- Claim C4.  Both finalizers sort participants by score descending with
cumulative timeSpent ascending as the tie-breaker (the comparator
b.score - a.score or-else a.timeSpent - b.timeSpent) and assign rank as
the 1-based position in the sorted order; on the test vector with scores
50, 80, 80, 30 and times 10, 5, 8, 20 the ranks are 80 and 5 first, 80 and
8 second, 50 and 10 third, 30 and 20 fourth. -/
theorem rank_ordering :
    (∀ ps : List Participant,
        List.Sorted rankLe ((finalizeQuizRanking ps).map Prod.fst)
        ∧ ((finalizeQuizRanking ps).map Prod.fst).Perm ps
        ∧ (finalizeQuizRanking ps).map Prod.snd = List.range' 1 ps.length)
    ∧ (∀ ps : List Participant,
        List.Sorted rankLe ((endQuizSessionRanking ps).map Prod.fst)
        ∧ ((endQuizSessionRanking ps).map Prod.fst).Perm (ps.filter (·.paid))
        ∧ (endQuizSessionRanking ps).map Prod.snd
            = List.range' 1 (ps.filter (·.paid)).length)
    ∧ finalizeQuizRanking [pA, pB, pC, pD]
        = [(pB, 1), (pC, 2), (pA, 3), (pD, 4)]
    ∧ endQuizSessionRanking [pA, pB, pC, pD]
        = [(pB, 1), (pC, 2), (pA, 3), (pD, 4)] := by
  have hfst : ∀ l : List Participant,
      ((l.enum.map (fun ip => (ip.2, ip.1 + 1))).map Prod.fst) = l := by
    intro l
    rw [List.map_map]
    have h1 : (Prod.fst ∘ fun ip : Nat × Participant => (ip.2, ip.1 + 1))
        = Prod.snd := rfl
    rw [h1]
    simp
  have hsnd : ∀ l : List Participant,
      ((l.enum.map (fun ip => (ip.2, ip.1 + 1))).map Prod.snd)
        = List.range' 1 l.length := by
    intro l
    rw [List.map_map]
    have : (Prod.snd ∘ fun ip : Nat × Participant => (ip.2, ip.1 + 1))
        = (fun ip : Nat × Participant => ip.1 + 1) := rfl
    rw [this]
    have h2 : (fun ip : Nat × Participant => ip.1 + 1)
        = ((fun i => i + 1) ∘ Prod.fst) := rfl
    rw [h2, ← List.map_map, List.enum_map_fst]
    induction l.length with
    | zero => simp
    | succ n ih =>
        rw [List.range_succ, List.range'_concat]
        simp [ih]
        omega
  refine ⟨?_, ?_, by decide, by decide⟩
  · intro ps
    refine ⟨?_, ?_, ?_⟩
    · rw [show (finalizeQuizRanking ps).map Prod.fst
          = List.insertionSort rankLe ps from hfst _]
      exact List.sorted_insertionSort rankLe ps
    · rw [show (finalizeQuizRanking ps).map Prod.fst
          = List.insertionSort rankLe ps from hfst _]
      exact List.perm_insertionSort rankLe ps
    · rw [show (finalizeQuizRanking ps).map Prod.snd
          = List.range' 1 (List.insertionSort rankLe ps).length from hsnd _,
        List.length_insertionSort]
  · intro ps
    refine ⟨?_, ?_, ?_⟩
    · rw [show (endQuizSessionRanking ps).map Prod.fst
          = List.insertionSort rankLe (ps.filter (·.paid)) from hfst _]
      exact List.sorted_insertionSort rankLe _
    · rw [show (endQuizSessionRanking ps).map Prod.fst
          = List.insertionSort rankLe (ps.filter (·.paid)) from hfst _]
      exact List.perm_insertionSort rankLe _
    · rw [show (endQuizSessionRanking ps).map Prod.snd
          = List.range' 1 (List.insertionSort rankLe
              (ps.filter (·.paid))).length from hsnd _,
        List.length_insertionSort]

/-- Claim C5 (amended).  The automatic path startQuizDirectly claims the
quiz with an atomic conditional update (only when the durable record has
isLive = false), so a duplicate automatic start is a no-op: exactly one
live transition and one currentQuestionIndex reset.  manualStartQuiz,
however, checks isLive on the document snapshot it loaded and then saves
unconditionally; sequentially it refuses a live record, but it does not go
through the atomic claim transition (see the counterexample). -/
theorem idempotent_start (quiz : QuizRec) (now now₂ : Int)
    (h : quiz.isLive = false) :
    (∃ quiz', startQuizDirectly (some quiz) now = (some quiz', true)
      ∧ quiz'.isLive = true
      ∧ quiz'.currentQuestionIndex = 0
      ∧ quiz'.status = "live"
      ∧ startQuizDirectly (some quiz') now₂ = (some quiz', false))
    ∧ ∀ (qrand : Nat → Nat) (orand : Nat → Nat → Nat) (quizL : QuizRec),
        quizL.isLive = true →
        manualStartQuiz qrand orand (some quizL) now₂
          = .error "Quiz already live" := by
  constructor
  · refine ⟨{ quiz with
              status := "live"
              isLive := true
              published := true
              startTime := some now
              currentQuestionIndex := 0 },
      ?_, rfl, rfl, rfl, ?_⟩
    · simp [startQuizDirectly, h]
    · simp [startQuizDirectly]
  · intro qrand orand quizL hL
    simp [manualStartQuiz, manualStartOn, hL]

/-- Claim C5 counterexample: manualStartQuiz does not go through the atomic
claim transition.  With a durable record that is already live at
currentQuestionIndex 3, the atomic path refuses to start, but the manual
path - whose liveness check ran on the stale pre-live snapshot loaded by
findById - still succeeds and resets currentQuestionIndex to 0 a second
time with an unconditional save. -/
theorem manual_start_not_atomic :
    (startQuizDirectly
      (some { sampleQuiz with isLive := true, currentQuestionIndex := 3 })
      9000).2 = false
    ∧ (∃ m, manualStartOn (fun _ => 0) (fun _ _ => 0)
        { sampleQuiz with isLive := false, currentQuestionIndex := 3 } 9000
        = .ok m
      ∧ m.isLive = true ∧ m.currentQuestionIndex = 0) := by
  refine ⟨by decide, ⟨_, rfl, by decide, by decide⟩⟩

/-- Witness for idempotent_start at a concrete scheduled quiz. -/
theorem idempotent_start_witness :
    (∃ quiz', startQuizDirectly
        (some { sampleQuiz with isLive := false }) 8000 = (some quiz', true)
      ∧ quiz'.isLive = true
      ∧ quiz'.currentQuestionIndex = 0
      ∧ quiz'.status = "live"
      ∧ startQuizDirectly (some quiz') 8500 = (some quiz', false))
    ∧ ∀ (qrand : Nat → Nat) (orand : Nat → Nat → Nat) (quizL : QuizRec),
        quizL.isLive = true →
        manualStartQuiz qrand orand (some quizL) 8500
          = .error "Quiz already live" :=
  idempotent_start { sampleQuiz with isLive := false } 8000 8500 rfl

/-- Claim C6.  The session drivers advance the question index by exactly
one per step and never regress it: every advancing emitNextQuestion step
moves from idx to idx + 1, along any session trace consecutive defined
indices differ by exactly one, the trace is monotone, and the
orchestrator's advanceTo continuation likewise moves to idx + 1. -/
theorem monotonic_advancement (stores : Nat → Option QuizRec) (start : Nat) :
    (∀ (s : Option QuizRec) (idx n : Nat) (q : Option Question),
        emitNextQuestionStep s idx = .advanced n q → n = idx + 1)
    ∧ (∀ k i j, sessionTrace stores start k = some i →
        sessionTrace stores start (k + 1) = some j → j = i + 1)
    ∧ (∀ k l i j, k ≤ l → sessionTrace stores start k = some i →
        sessionTrace stores start l = some j → i ≤ j)
    ∧ (∀ (st : OrchState) (idx n : Nat),
        advanceToNext st idx = some n → n = idx + 1) := by
  have hstep : ∀ (s : Option QuizRec) (idx n : Nat) (q : Option Question),
      emitNextQuestionStep s idx = .advanced n q → n = idx + 1 := by
    intro s idx n q h
    rcases s with _ | quiz
    · simp [emitNextQuestionStep] at h
    · by_cases hl : quiz.isLive
      · by_cases hi : idx ≥ quiz.questions.length
        · simp [emitNextQuestionStep, hl, hi] at h
        · rcases hg : quiz.questions[idx]? with _ | qq
          · simp [emitNextQuestionStep, hl, hi, hg] at h
            exact h.1.symm
          · simp [emitNextQuestionStep, hl, hi, hg] at h
            exact h.1.symm
      · simp [emitNextQuestionStep, hl] at h
  have htr : ∀ k, sessionTrace stores start (k + 1) =
      traceStep (stores k) (sessionTrace stores start k) := fun k => rfl
  have htsome : ∀ (s : Option QuizRec) (i : Nat),
      traceStep s (some i) = stepNext (emitNextQuestionStep s i) :=
    fun s i => rfl
  have hsucc : ∀ k i j, sessionTrace stores start k = some i →
      sessionTrace stores start (k + 1) = some j → j = i + 1 := by
    intro k i j hk hk1
    rw [htr k, hk, htsome, ] at hk1
    rcases he : emitNextQuestionStep (stores k) i with _ | _ | ⟨n, q⟩
    · rw [he] at hk1
      simp [stepNext] at hk1
    · rw [he] at hk1
      simp [stepNext] at hk1
    · rw [he] at hk1
      simp only [stepNext, Option.some.injEq] at hk1
      rw [← hk1]
      exact hstep (stores k) i n q he
  refine ⟨hstep, hsucc, ?_, ?_⟩
  · intro k l i j
    induction l generalizing j with
    | zero =>
        intro hkl hk hl
        have : k = 0 := Nat.le_zero.mp hkl
        subst this
        rw [hk] at hl
        simp only [Option.some.injEq] at hl
        omega
    | succ m ih =>
        intro hkl hk hl
        rcases Nat.lt_or_ge k (m + 1) with hlt | hge
        · have hkm : k ≤ m := Nat.lt_succ_iff.mp hlt
          have hm : ∃ i', sessionTrace stores start m = some i' := by
            rcases hm' : sessionTrace stores start m with _ | i'
            · rw [htr m, hm'] at hl
              exact absurd hl (by simp [traceStep])
            · exact ⟨i', rfl⟩
          rcases hm with ⟨i', hm⟩
          have h1 : i ≤ i' := ih i' hkm hk hm
          have h2 : j = i' + 1 := hsucc m i' j hm hl
          omega
        · have : k = m + 1 := Nat.le_antisymm hkl hge
          subst this
          rw [hk] at hl
          simp only [Option.some.injEq] at hl
          omega
  · intro st idx n h
    unfold advanceToNext at h
    by_cases hlen : idx + 1 ≥ st.questions.length
    · rw [if_pos hlen] at h
      simp at h
    · rw [if_neg hlen] at h
      simp only [Option.some.injEq] at h
      omega

/-- Witness for monotonic_advancement on a concrete two-question live
quiz. -/
theorem monotonic_advancement_witness :
    ((1 : Nat) = 0 + 1) ∧ ((2 : Nat) = 1 + 1) ∧ ((0 : Nat) ≤ 2)
    ∧ ((1 : Nat) = 0 + 1) :=
  ⟨(monotonic_advancement stores6 0).2.1 0 0 1 rfl rfl,
   (monotonic_advancement stores6 0).2.1 1 1 2 rfl rfl,
   (monotonic_advancement stores6 0).2.2.1 0 2 0 2 (by omega) rfl rfl,
   (monotonic_advancement stores6 0).2.2.2
     { sampleOrchState with questions := liveQuiz6.questions } 0 1 (by decide)⟩

/-- Claim C7 evaluated at the failing input.  The question payloads built
by the orchestrator, the scheduler and getTodayQuiz are independent of the
correct-answer index (so those paths never expose it before the close
event, which carries it), but the join-room resynchronisation payload of
the first backend/server.js revision embeds the raw question document:
while the question with correctIndex 2 is still open, the payload handed
to the reconnecting client contains correctIndex 2. -/
theorem correct_index_leak_in_resync :
    (∀ (q : Question) (c : Int) (idx : Nat) (d : Int),
        questionForClients idx d { q with correctIndex := c }
          = questionForClients idx d q
        ∧ schedQuestionPayload { q with correctIndex := c }
          = schedQuestionPayload q)
    ∧ questionEndedPayload 0 { q10 with correctIndex := 2 }
        = { questionIndex := 0, correctIndex := 2 }
    ∧ leakQuiz.isLive = true
    ∧ leakQuiz.currentQuestionIndex = 0
    ∧ (joinRoomResync leakQuiz 3000).map (fun p => p.question.correctIndex)
        = some 2 := by
  refine ⟨fun q c idx d => ⟨rfl, rfl⟩, by decide, by decide, by decide, ?_⟩
  decide

/-- Claim C8 (amended).  When startQuizSession runs on a durable record
that is live with a non-negative currentQuestionIndex, its first
emitNextQuestion invocation resumes at exactly that stored index - not at
question 0 - but records a fresh question start instant (now) instead of
reloading the stored one. -/
theorem restart_resumes_from_stored_index
    (quiz : QuizRec) (now : Int)
    (hlive : quiz.isLive = true)
    (hidx : 0 ≤ quiz.currentQuestionIndex)
    (hlen : quiz.currentQuestionIndex.toNat < quiz.questions.length) :
    ∃ quiz', startQuizSessionFirstStep (some quiz) now
        = some (quiz.currentQuestionIndex.toNat, quiz')
      ∧ quiz'.currentQuestionIndex = quiz.currentQuestionIndex
      ∧ quiz'.questionStartTime = some now := by
  have hne : ¬quiz.questions.isEmpty := by
    rw [List.isEmpty_iff_length_eq_zero]
    omega
  have hinit : startSessionIndex (some quiz)
      = some quiz.currentQuestionIndex.toNat := by
    simp only [startSessionIndex, hne, if_false, if_pos hidx]
    simp [hne]
  have hget : quiz.questions[quiz.currentQuestionIndex.toNat]? ≠ none := by
    rw [List.getElem?_eq_getElem hlen]
    simp
  rcases hg : quiz.questions[quiz.currentQuestionIndex.toNat]? with _ | qq
  · exact absurd hg hget
  · have hstep : emitNextQuestionStep (some quiz)
        quiz.currentQuestionIndex.toNat
        = .advanced (quiz.currentQuestionIndex.toNat + 1) (some qq) := by
      simp [emitNextQuestionStep, hlive, Nat.not_le.mpr hlen, hg]
    refine ⟨{ quiz with
              currentQuestionIndex := (quiz.currentQuestionIndex.toNat : Int)
              questionStartTime := some now }, ?_, ?_, rfl⟩
    · simp only [startQuizSessionFirstStep, hinit, hstep]
    · simp only [Int.toNat_of_nonneg hidx]

/-- Claim C8 counterexample: on a live record with stored index 3 and
stored start instant 1000, the first session step resumes at index 3 but
persists questionStartTime 5000 (the current clock), not the stored 1000:
the start instant is not reloaded from the durable record. -/
theorem restart_does_not_reload_start_instant :
    resumeQuiz.questionStartTime = some 1000
    ∧ (startQuizSessionFirstStep (some resumeQuiz) 5000).map
        (fun p => (p.1, p.2.questionStartTime)) = some (3, some 5000)
    ∧ some (5000 : Int) ≠ resumeQuiz.questionStartTime := by
  refine ⟨by decide, ?_, by decide⟩
  decide

/-- Witness for restart_resumes_from_stored_index at the concrete mid-
session record. -/
theorem restart_resumes_from_stored_index_witness :
    ∃ quiz', startQuizSessionFirstStep (some resumeQuiz) 5000
        = some (resumeQuiz.currentQuestionIndex.toNat, quiz')
      ∧ quiz'.currentQuestionIndex = resumeQuiz.currentQuestionIndex
      ∧ quiz'.questionStartTime = some 5000 :=
  restart_resumes_from_stored_index resumeQuiz 5000 (by decide) (by decide)
    (by decide)

/-- Claim C9.  The outcome of both answer-intake paths - acceptance or
rejection, correctness, points, updated record and recorded timeTaken -
is a function of the server-observed clock only: two submissions identical
except for the client-supplied timeTaken field (REST) or timestampClient
field (socket) produce identical responses and identical saved records. -/
theorem client_timestamp_never_trusted :
    (∀ (store : Option QuizRec) (r : SubmitReq) (v v' now : Int),
        submitAnswer store { r with clientTimeTaken := v } now
          = submitAnswer store { r with clientTimeTaken := v' } now)
    ∧ (∀ (qstate : Option OrchState) (uid : Nat)
        (qIdx sel ts ts' now : Int),
        submitAnswerSocket qstate uid qIdx sel ts now
          = submitAnswerSocket qstate uid qIdx sel ts' now) :=
  ⟨fun store r v v' now => rfl, fun qstate uid qIdx sel ts ts' now => rfl⟩

/-- Replacing the element at an in-range position while putting the old
element in front is a permutation. -/
theorem cons_set_perm : ∀ (t : List α) (m : Nat) (a d : α),
    m < t.length → List.Perm (t.getD m d :: t.set m a) (a :: t) := by
  intro t
  induction t with
  | nil => intro m a d hm; simp at hm
  | cons b u ih =>
      intro m a d hm
      match m with
      | 0 =>
          simp only [List.getD_cons_zero, List.set_cons_zero]
          exact List.Perm.swap a b u
      | k + 1 =>
          simp only [List.getD_cons_succ, List.set_cons_succ]
          have hk : k < u.length := by
            simp only [List.length_cons] at hm
            omega
          exact ((List.Perm.swap b (u.getD k d) (u.set k a)).trans
            (List.Perm.cons b (ih k a d hk))).trans (List.Perm.swap a b u)

/-- The JS destructuring swap of two in-range positions is a
permutation. -/
theorem swapAt_perm : ∀ (l : List α) (i j : Nat) (d : α),
    i < l.length → j < l.length → List.Perm (swapAt l i j d) l := by
  intro l
  induction l with
  | nil => intro i j d hi _; simp at hi
  | cons c t ih =>
      intro i j d hi hj
      match i, j with
      | 0, 0 =>
          simp only [swapAt, List.getD_cons_zero, List.set_cons_zero]
          exact List.Perm.refl _
      | 0, m + 1 =>
          simp only [swapAt, List.getD_cons_zero, List.getD_cons_succ,
            List.set_cons_zero, List.set_cons_succ]
          exact cons_set_perm t m c d (by simp only [List.length_cons] at hj; omega)
      | n + 1, 0 =>
          simp only [swapAt, List.getD_cons_zero, List.getD_cons_succ,
            List.set_cons_zero, List.set_cons_succ]
          exact cons_set_perm t n c d (by simp only [List.length_cons] at hi; omega)
      | n + 1, m + 1 =>
          simp only [swapAt, List.getD_cons_succ, List.set_cons_succ]
          refine List.Perm.cons c ?_
          exact ih n m d
            (by simp only [List.length_cons] at hi; omega)
            (by simp only [List.length_cons] at hj; omega)

/-- The Fisher-Yates loop permutes its input when started in range. -/
theorem fyLoop_perm (rand : Nat → Nat) (d : α) :
    ∀ (i : Nat) (l : List α), i < l.length →
      List.Perm (fyLoop rand d i l) l := by
  intro i
  induction i with
  | zero => intro l _; exact List.Perm.refl _
  | succ n ihn =>
      intro l hi
      have hj : rand (n + 1) % (n + 2) < l.length := by
        have := Nat.mod_lt (rand (n + 1)) (show 0 < n + 2 by omega)
        omega
      have hlen : (swapAt l (n + 1) (rand (n + 1) % (n + 2)) d).length
          = l.length := by
        simp [swapAt]
      exact (ihn _ (by rw [hlen]; omega)).trans
        (swapAt_perm l (n + 1) (rand (n + 1) % (n + 2)) d hi hj)

/-- fisherYates returns a permutation of its input. -/
theorem fisherYates_perm (rand : Nat → Nat) (d : α) (l : List α) :
    List.Perm (fisherYates rand d l) l := by
  rcases l with _ | ⟨x, xs⟩
  · exact List.Perm.refl _
  · exact fyLoop_perm rand d xs.length (x :: xs) (by simp)

/-- shuffleOptions keeps a question's identity: same text and points, and
the options as a multiset. -/
theorem questionCore_shuffleOptions (rnd : Nat → Nat) (q : Question) :
    questionCore (shuffleOptions rnd q) = questionCore q := by
  unfold shuffleOptions
  by_cases he : q.options.isEmpty
  · rw [if_pos he]
  · rw [if_neg he]
    simp only [questionCore, Prod.mk.injEq]
    exact ⟨trivial, trivial, Multiset.coe_eq_coe.mpr (fisherYates_perm _ _ _)⟩

/-- When some element matches, jsFindIndex returns a non-negative index
denoting a matching element. -/
theorem jsFindIndex_spec (p : α → Bool) (l : List α) (h : ∃ x ∈ l, p x) :
    0 ≤ jsFindIndex p l
    ∧ ∃ y, jsIndex l (jsFindIndex p l) = some y ∧ p y = true := by
  have hk := List.findIdx_lt_length_of_exists h
  unfold jsFindIndex
  rw [if_pos hk]
  refine ⟨by omega, l[l.findIdx p], ?_, List.findIdx_getElem (w := hk)⟩
  unfold jsIndex
  rw [if_neg (by omega), Int.toNat_natCast, List.get?_eq_getElem?,
    List.getElem?_eq_getElem hk]

/-- Claim C10.  shuffleQuestions permutes the question list (the outer
Fisher-Yates shuffle, and consequently the list of question identities is
a permutation of the input's), and for every question whose correctIndex
is a valid index of its options list, shuffleOptions returns a permutation
of the options whose new correctIndex denotes the same option text as the
original correctIndex. -/
theorem shuffle_preserves_questions
    (qrand : Nat → Nat) (orand : Nat → Nat → Nat) (qs : List Question) :
    List.Perm (fisherYates qrand defaultQuestion qs) qs
    ∧ List.Perm ((shuffleQuestions qrand orand qs).map questionCore)
        (qs.map questionCore)
    ∧ ∀ (rnd : Nat → Nat) (q : Question),
        0 ≤ q.correctIndex → q.correctIndex.toNat < q.options.length →
        (List.Perm (shuffleOptions rnd q).options q.options
         ∧ 0 ≤ (shuffleOptions rnd q).correctIndex
         ∧ jsIndex (shuffleOptions rnd q).options
             (shuffleOptions rnd q).correctIndex
           = jsIndex q.options q.correctIndex) := by
  have hmapcore : ∀ (l : List Question),
      ((l.mapIdx (fun k q => shuffleOptions (orand k) q)).map questionCore)
        = l.map questionCore := by
    intro l
    rw [List.mapIdx_eq_enum_map, List.map_map]
    have h1 : (questionCore ∘ Function.uncurry
        (fun k q => shuffleOptions (orand k) q))
        = (questionCore ∘ Prod.snd) := by
      funext p
      exact questionCore_shuffleOptions (orand p.1) p.2
    rw [h1, ← List.map_map, List.enum_map_snd]
  refine ⟨fisherYates_perm qrand defaultQuestion qs, ?_, ?_⟩
  · unfold shuffleQuestions
    by_cases he : qs.isEmpty
    · rw [if_pos he]
    · rw [if_neg he, hmapcore]
      exact (fisherYates_perm qrand defaultQuestion qs).map questionCore
  · intro rnd q h0 hlt
    have hne : ¬q.options.isEmpty := by
      rw [List.isEmpty_iff_length_eq_zero]
      omega
    have horig : jsIndex q.options q.correctIndex
        = some (q.options[q.correctIndex.toNat]) := by
      unfold jsIndex
      rw [if_neg (by omega), List.get?_eq_getElem?, List.getElem?_eq_getElem hlt]
    have hperm : List.Perm (fisherYates rnd "" q.options) q.options :=
      fisherYates_perm rnd "" q.options
    have hmem : q.options[q.correctIndex.toNat] ∈ fisherYates rnd "" q.options :=
      hperm.mem_iff.mpr (List.getElem_mem hlt)
    have hex : ∃ x ∈ fisherYates rnd "" q.options,
        (jsIndex q.options q.correctIndex == some x) = true := by
      refine ⟨q.options[q.correctIndex.toNat], hmem, ?_⟩
      rw [horig]
      simp
    have hshuf : shuffleOptions rnd q =
        { q with
          options := fisherYates rnd "" q.options
          correctIndex := jsFindIndex
            (fun opt => jsIndex q.options q.correctIndex == some opt)
            (fisherYates rnd "" q.options) } := by
      unfold shuffleOptions
      rw [if_neg hne]
    rcases jsFindIndex_spec
        (fun opt => jsIndex q.options q.correctIndex == some opt)
        (fisherYates rnd "" q.options) hex with ⟨hpos, y, hjy, hpy⟩
    rw [hshuf]
    refine ⟨hperm, hpos, ?_⟩
    rw [hjy]
    have hy : jsIndex q.options q.correctIndex = some y := by
      simpa using beq_iff_eq.mp hpy
    exact hy.symm

/-- Witness for shuffle_preserves_questions: the valid-correctIndex clause
applied to the concrete question q10 and a concrete randomness stream. -/
theorem shuffle_preserves_questions_witness :
    List.Perm (shuffleOptions (fun i => i + 1) q10).options q10.options
    ∧ 0 ≤ (shuffleOptions (fun i => i + 1) q10).correctIndex
    ∧ jsIndex (shuffleOptions (fun i => i + 1) q10).options
        (shuffleOptions (fun i => i + 1) q10).correctIndex
      = jsIndex q10.options q10.correctIndex :=
  (shuffle_preserves_questions (fun i => i) (fun k i => k + i) [q10]).2.2
    (fun i => i + 1) q10 (by decide) (by decide)
